/-
Verification of the price-comparison pipeline: a shallow embedding of the
TypeScript sources (src/core/priceParser.ts, src/core/resultSorter.ts,
src/core/searchService.ts, src/types.ts, src/services) into Lean 4,
together with theorems settling the specification claims.

Modelling conventions:
- JavaScript numbers are modelled as rationals (ℚ); NaN is modelled by
  Option (a failed parse yields none, and every numeric guard fails on it,
  matching the behaviour of comparisons with NaN).
- JavaScript strings are Lean Strings; regex scanning works on List Char.
- The fixed regex literals of the source are embedded via a small
  backtracking matcher (RE / reMatch below) implementing the greedy,
  leftmost-priority semantics of JavaScript regexes for the constructs
  those literals use. The Nat fuel argument only bounds the recursion
  depth of the matcher; callers pass a fuel large enough that it is never
  exhausted on the inputs considered.
- The WHATWG URL constructor is modelled for the absolute http(s)-style
  URLs this pipeline handles (urlHostPath below).
-/
import Mathlib

set_option maxRecDepth 100000

/- The Batteries rational operations are `@[irreducible]`; unfold them so
that concrete runs of the embedded functions can be checked by `decide`. -/
unseal Rat.mul Rat.add Rat.inv Rat.sub

/-! ## Core types (src/types.ts) -/

inductive Source where
  | brave
  | tavily
  | google
deriving DecidableEq, Repr

/-- One entry of `structuredData.metatags` (only the two fields read by
`parsePrice` are modelled: `product:price:amount` and
`product:price:currency`). -/
structure Metatag where
  priceAmount : Option String
  priceCurrency : Option String
deriving DecidableEq, Repr

/-- One entry of `structuredData.offers`. -/
structure Offer where
  price : Option String
  pricecurrency : Option String
deriving DecidableEq, Repr

structure StructuredData where
  offers : Option (List Offer)
  metatags : Option (List Metatag)
deriving DecidableEq, Repr

structure SearchResult where
  title : String
  url : String
  snippet : Option String
  description : Option String
  source : Source
  structuredData : Option StructuredData
deriving DecidableEq, Repr

structure PriceInfo where
  retailer : String
  productName : String
  currentPrice : ℚ
  currency : String
  discount : Option ℤ
  originalPrice : Option ℚ
  url : String
  source : Source
  normalizedPrice : Option ℚ
deriving DecidableEq, Repr

/-- `CURRENCY_RATES` from src/types.ts. -/
def CURRENCY_RATES : List (String × ℚ) :=
  [("USD", 1), ("GBP", 127/100), ("EUR", 109/100), ("CAD", 74/100), ("AUD", 66/100)]

/-! ## Currency normalization (src/core/resultSorter.ts, normalizeToUSD) -/

/-- `normalizeToUSD`: `const rate = CURRENCY_RATES[currency] || 1.0; return price * rate`. -/
def normalizeToUSD (price : ℚ) (currency : String) : ℚ :=
  let rate := (CURRENCY_RATES.lookup currency).getD 1
  price * rate

/-! ## String helpers -/

/-- JavaScript `String.prototype.includes`: `sub` occurs contiguously in `s`. -/
def jsIncludes (s sub : String) : Bool :=
  decide (sub.toList <:+: s.toList)

/-- JavaScript `toLowerCase` (over the ASCII range this pipeline uses). -/
def jsToLower (s : String) : String :=
  String.mk (s.toList.map Char.toLower)

/-- JavaScript `toUpperCase` (over the ASCII range this pipeline uses). -/
def jsToUpper (s : String) : String :=
  String.mk (s.toList.map Char.toUpper)

/-! ## Query builder (src/core/searchService.ts, enhanceSearchQuery) -/

def enhanceSearchQuery (productName : String) : String :=
  let lowerQuery := jsToLower productName
  let hasPricingKeyword :=
    (["price", "buy", "shop", "purchase"].any fun k => jsIncludes lowerQuery k)
  if !hasPricingKeyword then
    productName ++ " price"
  else
    productName

/-! ## Commerce filter (src/core/searchService.ts, filterEcommerceResults) -/

def nonEcommerceDomains : List String :=
  ["youtube", "youtu.be", "reddit", "twitter", "facebook", "instagram",
   "tiktok", "pinterest"]

def ecommerceDomains : List String :=
  ["amazon", "ebay", "walmart", "target", "bestbuy", "newegg", "costco",
   "homedepot", "lowes", "macys", "nordstrom", "zappos", "wayfair",
   "overstock", "etsy", "aliexpress", "alibaba"]

def ecommerceKeywords : List String :=
  ["/shop/", "/store/", "/product", "/item"]

def titleKeywords : List String :=
  ["buy", "shop"]

/-- Block-list test: the lowercased URL contains a non-commerce domain. -/
def urlBlocked (r : SearchResult) : Bool :=
  nonEcommerceDomains.any fun domain => jsIncludes (jsToLower r.url) domain

/-- Allow-list test: the lowercased URL contains a known retailer domain. -/
def urlAllowed (r : SearchResult) : Bool :=
  ecommerceDomains.any fun domain => jsIncludes (jsToLower r.url) domain

/-- The lowercased URL contains a commerce-path keyword. -/
def urlPathCommerce (r : SearchResult) : Bool :=
  ecommerceKeywords.any fun keyword => jsIncludes (jsToLower r.url) keyword

/-- The lowercased title contains a buy-intent keyword. -/
def titleBuyIntent (r : SearchResult) : Bool :=
  titleKeywords.any fun keyword => jsIncludes (jsToLower r.title) keyword

/-- Per-result predicate of `filterEcommerceResults`. -/
def isEcommerceResult (r : SearchResult) : Bool :=
  if urlBlocked r then false
  else if urlAllowed r then true
  else if urlPathCommerce r then true
  else if titleBuyIntent r then true
  else false

def filterEcommerceResults (results : List SearchResult) : List SearchResult :=
  results.filter isEcommerceResult

/-! ## Ranker (src/core/resultSorter.ts) -/

/-- The sort key: `a.normalizedPrice || 0`. -/
def priceKey (p : PriceInfo) : ℚ :=
  p.normalizedPrice.getD 0

/-- The `.map` step of the sorters: spread the record and attach
`normalizedPrice`. -/
def annotateNormalized (r : PriceInfo) : PriceInfo :=
  { r with normalizedPrice := some (normalizeToUSD r.currentPrice r.currency) }

/-- Boolean comparator corresponding to `(a.normalizedPrice || 0) - (b.normalizedPrice || 0) <= 0`. -/
def priceLe (a b : PriceInfo) : Bool :=
  decide (priceKey a ≤ priceKey b)

/-- `sortByPriceAscending`: copy, annotate with `normalizedPrice`, stable
sort ascending by it. -/
def sortByPriceAscending (results : List PriceInfo) : List PriceInfo :=
  if results.isEmpty then []
  else (results.map annotateNormalized).mergeSort priceLe

/-! ## URL model

The source relies on the WHATWG `URL` constructor. We model its behaviour
on the absolute `scheme://host...` URLs this pipeline handles: parsing
succeeds when the string contains `"://"` preceded by a nonempty scheme and
followed by a nonempty host; the host (lowercased, as `URL` does) runs up
to the first `/`, `?`, `#` or `:`, and the pathname is the `/...` segment
up to `?` or `#` (defaulting to `"/"`). Any other string makes the
constructor throw, modelled by `none`. -/

/-- Split `scheme://rest`: returns `(scheme, rest)` if the string starts
with a nonempty scheme followed by `"://"`. -/
def splitScheme : List Char → Option (List Char × List Char)
  | [] => none
  | c :: cs =>
    if c = ':' then
      match cs with
      | '/' :: '/' :: rest => some ([], rest)
      | _ => none
    else
      match splitScheme cs with
      | some (sch, rest) => some (c :: sch, rest)
      | none => none

/-- Hostname and pathname of an absolute URL, `none` when the `URL`
constructor would throw. -/
def urlHostPath (url : String) : Option (List Char × List Char) :=
  match splitScheme url.toList with
  | none => none
  | some (sch, rest) =>
    if sch = [] then none
    else
      let host := rest.takeWhile fun c => ¬(c = '/' ∨ c = '?' ∨ c = '#' ∨ c = ':')
      let tail := rest.dropWhile fun c => ¬(c = '/' ∨ c = '?' ∨ c = '#' ∨ c = ':')
      if host = [] then none
      else
        let path :=
          match tail with
          | '/' :: _ => tail.takeWhile fun c => ¬(c = '?' ∨ c = '#')
          | _ => ['/']
        some (host.map Char.toLower, path)

/-- `replace(/^www\./, '')`. -/
def stripWww (host : List Char) : List Char :=
  if ['w', 'w', 'w', '.'].isPrefixOf host then host.drop 4 else host

/-- JavaScript `split('.')` (so `"".split('.') = [""]`). -/
def splitOnDot : List Char → List (List Char)
  | [] => [[]]
  | c :: cs =>
    let r := splitOnDot cs
    if c = '.' then [] :: r
    else
      match r with
      | [] => [[c]]
      | g :: gs => (c :: g) :: gs

/-- `charAt(0).toUpperCase() + slice(1)`. -/
def capitalizeFirst : List Char → List Char
  | [] => []
  | c :: cs => Char.toUpper c :: cs

/-! ## Retailer extraction (src/core/priceParser.ts, extractRetailer) -/

def extractRetailer (url : String) : String :=
  match urlHostPath url with
  | some (hostname, _) =>
    let domain := stripWww hostname
    let parts := splitOnDot domain
    if parts.length ≥ 2 then
      String.mk (capitalizeFirst (parts.headD []))
    else
      String.mk domain
  | none => "Unknown"

/-! ## Retailer identity (src/core/priceParser.ts, normalizeRetailerUrl) -/

def normalizeRetailerUrl (url : String) : String :=
  match urlHostPath url with
  | some (hostname, _) =>
    let hostname := hostname.map Char.toLower
    let withoutWww := stripWww hostname
    let parts := splitOnDot withoutWww
    if parts.length ≥ 2 then
      String.mk (parts.headD [])
    else
      String.mk withoutWww
  | none => jsToLower url

/-! ## URL-level deduplication (src/core/searchService.ts) -/

/-- `replace(/\/$/, '')`: drop one trailing slash. -/
def dropTrailingSlash (l : List Char) : List Char :=
  if l.getLast? = some '/' then l.dropLast else l

/-- `normalizeUrlForDedup`: hostname without `www.` plus pathname, without
a trailing slash, lowercased; on a parse failure the raw URL lowercased. -/
def normalizeUrlForDedup (url : String) : String :=
  match urlHostPath url with
  | some (hostname, pathname) =>
    String.mk ((dropTrailingSlash (stripWww hostname ++ pathname)).map Char.toLower)
  | none => jsToLower url

/-- The `seen`-set loop of `deduplicateResults`. -/
def dedupResultsGo (seen : List String) : List SearchResult → List SearchResult
  | [] => []
  | r :: rest =>
    let normalizedUrl := normalizeUrlForDedup r.url
    if normalizedUrl ∈ seen then dedupResultsGo seen rest
    else r :: dedupResultsGo (normalizedUrl :: seen) rest

/-- `deduplicateResults`: first result observed for a normalized URL wins. -/
def deduplicateResults (results : List SearchResult) : List SearchResult :=
  dedupResultsGo [] results

/-! ## Regex engine

A backtracking matcher for the fixed regex literals of the source.
`reMatch` enumerates the possible parses at a position in JavaScript
priority order (alternatives left to right, greedy `*`/`?`/`{m,n}`), so
the head of the returned list is the parse a JavaScript regex engine
commits to. Capture groups record the text they consumed. The `fuel`
argument bounds recursion depth only; every use below supplies fuel that
is provably or evidently sufficient (each `*` iteration consumes at least
one character, and the patterns are of fixed size). -/

inductive RE where
  | eps : RE
  | chr : Char → RE
  | chrCI : Char → RE
  | digit : RE
  | wsp : RE
  | dot : RE
  | cat : RE → RE → RE
  | alt : RE → RE → RE
  | star : RE → RE
  | opt : RE → RE
  | group : Nat → RE → RE
  | eos : RE
deriving Repr

/-- Captures: group number paired with the consumed characters. -/
abbrev Caps := List (Nat × List Char)

/-- One parse: (consumed characters, remaining input, captures). -/
abbrev REMatch := List Char × List Char × Caps

/-- All parses of `re` at the start of `s`, in priority order. -/
def reMatch (fuel : Nat) (re : RE) (s : List Char) : List REMatch :=
  match fuel with
  | 0 => []
  | fuel + 1 =>
    match re with
    | .eps => [([], s, [])]
    | .chr c =>
      match s with
      | [] => []
      | x :: xs => if x = c then [([x], xs, [])] else []
    | .chrCI c =>
      match s with
      | [] => []
      | x :: xs => if x.toLower = c.toLower then [([x], xs, [])] else []
    | .digit =>
      match s with
      | [] => []
      | x :: xs => if x.isDigit then [([x], xs, [])] else []
    | .wsp =>
      match s with
      | [] => []
      | x :: xs => if x.isWhitespace then [([x], xs, [])] else []
    | .dot =>
      match s with
      | [] => []
      | x :: xs => if x = '\n' then [] else [([x], xs, [])]
    | .cat r1 r2 =>
      (reMatch fuel r1 s).flatMap fun m1 =>
        (reMatch fuel r2 m1.2.1).map fun m2 =>
          (m1.1 ++ m2.1, m2.2.1, m1.2.2 ++ m2.2.2)
    | .alt r1 r2 => reMatch fuel r1 s ++ reMatch fuel r2 s
    | .opt r => reMatch fuel r s ++ [([], s, [])]
    | .group n r =>
      (reMatch fuel r s).map fun m => (m.1, m.2.1, (n, m.1) :: m.2.2)
    | .star r =>
      (((reMatch fuel r s).filter fun m => !m.1.isEmpty).flatMap fun m1 =>
        (reMatch fuel (.star r) m1.2.1).map fun m2 =>
          (m1.1 ++ m2.1, m2.2.1, m1.2.2 ++ m2.2.2))
      ++ [([], s, [])]
    | .eos => if s.isEmpty then [([], s, [])] else []

/-- Size of a pattern, for fuel computation. -/
def reSize : RE → Nat
  | .eps | .chr _ | .chrCI _ | .digit | .wsp | .dot | .eos => 1
  | .cat r1 r2 | .alt r1 r2 => reSize r1 + reSize r2 + 1
  | .star r | .opt r | .group _ r => reSize r + 1

/-- Fuel sufficient for `reMatch` on input `s`: nesting is bounded by the
pattern size per consumed character plus the pattern size. -/
def reFuel (re : RE) (s : List Char) : Nat :=
  (reSize re + 1) * (s.length + 2)

/-- Leftmost match (JavaScript `exec` / non-global `match`): the first
position at which the pattern matches, with the priority parse there.
Returns (index, consumed, captures). -/
def reFindGo (re : RE) (i : Nat) (t : List Char) : Option (Nat × List Char × Caps) :=
  match reMatch (reFuel re t) re t with
  | m :: _ => some (i, m.1, m.2.2)
  | [] =>
    match t with
    | [] => none
    | _ :: ts => reFindGo re (i + 1) ts

def reFind (re : RE) (s : List Char) : Option (Nat × List Char × Caps) :=
  reFindGo re 0 s

/-- JavaScript `RegExp.prototype.test`. -/
def reTest (re : RE) (s : List Char) : Bool :=
  (reFind re s).isSome

/-- `matchAll` on a `g`-flagged regex: repeatedly take the leftmost match
and resume after it (advancing by one position on an empty match). -/
def reMatchAllGo (re : RE) (fuel : Nat) (base : Nat) (t : List Char) :
    List (Nat × List Char × Caps) :=
  match fuel with
  | 0 => []
  | fuel + 1 =>
    match reFind re t with
    | none => []
    | some (i, cons, caps) =>
      let adv := i + max cons.length 1
      (base + i, cons, caps) :: reMatchAllGo re fuel (base + adv) (t.drop adv)

def reMatchAll (re : RE) (s : List Char) : List (Nat × List Char × Caps) :=
  reMatchAllGo re (s.length + 1) 0 s

/-- First capture group of a match. -/
def capGet (caps : Caps) (n : Nat) : Option (List Char) :=
  (caps.find? fun kv => kv.1 = n).map fun kv => kv.2

/-! ### Pattern constructors -/

def reCats (rs : List RE) : RE :=
  rs.foldr RE.cat .eps

def reAlts (r : RE) (rs : List RE) : RE :=
  rs.foldl RE.alt r

/-- Case-sensitive literal string. -/
def reStr (s : String) : RE :=
  reCats (s.toList.map RE.chr)

/-- Case-insensitive literal string (for `i`-flagged regexes). -/
def reStrCI (s : String) : RE :=
  reCats (s.toList.map RE.chrCI)

/-- `\d+` -/
def reDigits : RE :=
  .cat .digit (.star .digit)

/-- `\d{1,3}`, greedy. -/
def reD13 : RE :=
  .cat .digit (.opt (.cat .digit (.opt .digit)))

/-- `\d{1,2}`, greedy. -/
def reD12 : RE :=
  .cat .digit (.opt .digit)

/-- `(?:,\d{3})` -/
def reCommaGroup : RE :=
  reCats [.chr ',', .digit, .digit, .digit]

/-- `\d{1,3}(?:,\d{3})*(?:\.\d{2})?` — the US/UK amount. -/
def reNumUS : RE :=
  reCats [reD13, .star reCommaGroup, .opt (reCats [.chr '.', .digit, .digit])]

/-- `\d{1,3}(?:[.,]\d{3})*(?:[.,]\d{2})?` — the European amount. -/
def reNumEU : RE :=
  reCats [reD13, .star (reCats [.alt (.chr '.') (.chr ','), .digit, .digit, .digit]),
    .opt (reCats [.alt (.chr '.') (.chr ','), .digit, .digit])]

/-! ## Price patterns (src/core/priceParser.ts, PRICE_PATTERNS) -/

/-- Currency resolution rule of a price pattern: a fixed code, or `'match'`
(take capture group 2). -/
inductive CurRule where
  | fixed : String → CurRule
  | fromMatch : CurRule
deriving Repr

/-- `/CAD\s?\$?\s?(\d{1,3}(?:,\d{3})*(?:\.\d{2})?)/gi` -/
def patCAD : RE :=
  reCats [reStrCI "CAD", .opt .wsp, .opt (.chr '$'), .opt .wsp, .group 1 reNumUS]

/-- `/AUD\s?\$?\s?(\d{1,3}(?:,\d{3})*(?:\.\d{2})?)/gi` -/
def patAUD : RE :=
  reCats [reStrCI "AUD", .opt .wsp, .opt (.chr '$'), .opt .wsp, .group 1 reNumUS]

/-- `/(\d{1,3}(?:,\d{3})*(?:\.\d{2})?)\s?(USD|GBP|EUR|CAD|AUD)/gi` -/
def patCode : RE :=
  reCats [.group 1 reNumUS, .opt .wsp,
    .group 2 (reAlts (reStrCI "USD")
      [reStrCI "GBP", reStrCI "EUR", reStrCI "CAD", reStrCI "AUD"])]

/-- `/\$\s?(\d{1,3}(?:,\d{3})*(?:\.\d{2})?)/g` -/
def patUSD : RE :=
  reCats [.chr '$', .opt .wsp, .group 1 reNumUS]

/-- `/£\s?(\d{1,3}(?:,\d{3})*(?:\.\d{2})?)/g` -/
def patGBP : RE :=
  reCats [.chr '£', .opt .wsp, .group 1 reNumUS]

/-- `/€\s?(\d{1,3}(?:[.,]\d{3})*(?:[.,]\d{2})?)/g` -/
def patEUR : RE :=
  reCats [.chr '€', .opt .wsp, .group 1 reNumEU]

def PRICE_PATTERNS : List (RE × CurRule) :=
  [(patCAD, .fixed "CAD"), (patAUD, .fixed "AUD"), (patCode, .fromMatch),
   (patUSD, .fixed "USD"), (patGBP, .fixed "GBP"), (patEUR, .fixed "EUR")]

/-! ## Discount patterns (DISCOUNT_PATTERNS) -/

/-- `/(\d{1,2})%\s*off/i` -/
def patDisc1 : RE :=
  reCats [.group 1 reD12, .chr '%', .star .wsp, reStrCI "off"]

/-- `/save\s*(\d{1,2})%/i` -/
def patDisc2 : RE :=
  reCats [reStrCI "save", .star .wsp, .group 1 reD12, .chr '%']

/-- `/(\d{1,2})%\s*discount/i` -/
def patDisc3 : RE :=
  reCats [.group 1 reD12, .chr '%', .star .wsp, reStrCI "discount"]

/-- `/discount:\s*(\d{1,2})%/i` -/
def patDisc4 : RE :=
  reCats [reStrCI "discount:", .star .wsp, .group 1 reD12, .chr '%']

def DISCOUNT_PATTERNS : List RE :=
  [patDisc1, patDisc2, patDisc3, patDisc4]

/-! ## "Was" price patterns (WAS_PRICE_PATTERNS) -/

/-- `/was\s*\$(\d{1,3}(?:,\d{3})*(?:\.\d{2})?)/i` -/
def patWas1 : RE :=
  reCats [reStrCI "was", .star .wsp, .chr '$', .group 1 reNumUS]

/-- `/was\s*£(\d{1,3}(?:,\d{3})*(?:\.\d{2})?)/i` -/
def patWas2 : RE :=
  reCats [reStrCI "was", .star .wsp, .chr '£', .group 1 reNumUS]

/-- `/was\s*€(\d{1,3}(?:[.,]\d{3})*(?:[.,]\d{2})?)/i` -/
def patWas3 : RE :=
  reCats [reStrCI "was", .star .wsp, .chr '€', .group 1 reNumEU]

/-- `/originally?\s*\$(\d{1,3}(?:,\d{3})*(?:\.\d{2})?)/i` -/
def patWas4 : RE :=
  reCats [reStrCI "originall", .opt (.chrCI 'y'), .star .wsp, .chr '$', .group 1 reNumUS]

/-- `/reg(?:ular)?\s*\$(\d{1,3}(?:,\d{3})*(?:\.\d{2})?)/i` -/
def patWas5 : RE :=
  reCats [reStrCI "reg", .opt (reStrCI "ular"), .star .wsp, .chr '$', .group 1 reNumUS]

def WAS_PRICE_PATTERNS : List RE :=
  [patWas1, patWas2, patWas3, patWas4, patWas5]

/-! ## Context-exclusion regexes (extractPrice, lines 145-167) -/

/-- `/\$?\d+\.?\d*\s*\/\s*(oz|ml|fl\.?\s?oz|gram|kg|lb|each|count|ct)/i` -/
def reUnitPrice : RE :=
  reCats [.opt (.chr '$'), reDigits, .opt (.chr '.'), .star .digit,
    .star .wsp, .chr '/', .star .wsp,
    .group 1 (reAlts (reStrCI "oz")
      [reStrCI "ml",
       reCats [reStrCI "fl", .opt (.chr '.'), .opt .wsp, reStrCI "oz"],
       reStrCI "gram", reStrCI "kg", reStrCI "lb", reStrCI "each",
       reStrCI "count", reStrCI "ct"])]

/-- `/(free|flat rate)?\s*shipping\s*(on|over|above|at)?\s*\$?\d+/i` -/
def reShipping : RE :=
  reCats [.opt (.group 1 (.alt (reStrCI "free") (reStrCI "flat rate"))), .star .wsp,
    reStrCI "shipping", .star .wsp,
    .opt (.group 2 (reAlts (reStrCI "on") [reStrCI "over", reStrCI "above", reStrCI "at"])),
    .star .wsp, .opt (.chr '$'), reDigits]

/-- `/(\d+\s*)?(payments?|installments?)\s*(of|@)\s*\$?\d+/i` -/
def rePayments : RE :=
  reCats [.opt (.group 1 (.cat reDigits (.star .wsp))),
    .group 2 (.alt (.cat (reStrCI "payment") (.opt (.chrCI 's')))
      (.cat (reStrCI "installment") (.opt (.chrCI 's')))),
    .star .wsp, .group 3 (.alt (reStrCI "of") (.chr '@')),
    .star .wsp, .opt (.chr '$'), reDigits]

/-- `/(?:less than|under|over)\s+\$?\d+/i` -/
def reRangeWords : RE :=
  reCats [reAlts (reStrCI "less than") [reStrCI "under", reStrCI "over"],
    .wsp, .star .wsp, .opt (.chr '$'), reDigits]

/-- `/\$\d+\.?\d*\s*[-–]\s*\$\d+/i` -/
def reDashRange : RE :=
  reCats [.chr '$', reDigits, .opt (.chr '.'), .star .digit,
    .star .wsp, .alt (.chr '-') (.chr '–'), .star .wsp, .chr '$', reDigits]

/-! ## Number parsing -/

/-- Digits to a natural number (also JavaScript `parseInt(str, 10)` on an
all-digit string). -/
def digitsToNat (l : List Char) : Nat :=
  l.foldl (fun n c => n * 10 + (c.toNat - '0'.toNat)) 0

/-- JavaScript `parseFloat` on the strings this pipeline produces (digits,
dots, commas; no exponents): longest numeric prefix, `none` for `NaN`. -/
def jsParseFloat (s : List Char) : Option ℚ :=
  let s := s.dropWhile Char.isWhitespace
  let sign : ℚ := if s.headD ' ' = '-' then -1 else 1
  let s := if s.headD ' ' = '-' ∨ s.headD ' ' = '+' then s.drop 1 else s
  let ip := s.takeWhile Char.isDigit
  let r := s.dropWhile Char.isDigit
  match r with
  | '.' :: r2 =>
    let fp := r2.takeWhile Char.isDigit
    if ip.isEmpty ∧ fp.isEmpty then none
    else some (sign * ((digitsToNat ip : ℚ) + (digitsToNat fp : ℚ) / (10 : ℚ) ^ fp.length))
  | _ => if ip.isEmpty then none else some (sign * (digitsToNat ip : ℚ))

/-- `replace(',', '.')`: JavaScript `replace` with a string pattern
replaces the first occurrence only. -/
def replaceFirstComma : List Char → List Char
  | [] => []
  | c :: cs => if c = ',' then '.' :: cs else c :: replaceFirstComma cs

/-- `parseNumber` (src/core/priceParser.ts): handles the European decimal
styles for EUR, US/UK comma-thousands otherwise. `none` models `NaN`. -/
def parseNumber (str : List Char) (currency : String) : Option ℚ :=
  if currency = "EUR" ∧ str.contains '.' ∧ str.contains ',' then
    jsParseFloat (replaceFirstComma (str.filter fun c => c ≠ '.'))
  else if currency = "EUR" ∧ str.contains ',' ∧ ¬str.contains '.' then
    jsParseFloat (replaceFirstComma str)
  else
    jsParseFloat (str.filter fun c => c ≠ ',')

/-- JavaScript `Math.round`: nearest integer, ties toward positive
infinity. -/
def jsRound (q : ℚ) : ℤ :=
  ⌊q + 1 / 2⌋

/-! ## Price extraction (src/core/priceParser.ts, extractPrice) -/

structure PriceMatch where
  amount : ℚ
  currency : String
deriving DecidableEq, Repr

/-- The context-window test of `extractPrice`: `true` when the candidate
survives all exclusion predicates. -/
def passesContext (text : List Char) (idx : Nat) (matched : List Char) : Bool :=
  let contextBefore := (text.take idx).drop (idx - 20)
  let contextAfter := (text.drop (idx + matched.length)).take 20
  let fullContext := contextBefore ++ matched ++ contextAfter
  let rangeFilterTest := contextBefore ++ matched
  !reTest reUnitPrice fullContext &&
  !reTest reShipping fullContext &&
  !reTest rePayments fullContext &&
  !reTest reRangeWords rangeFilterTest &&
  !reTest reDashRange fullContext

/-- Resolve the currency of a match (`extractPrice` lines 171-177). -/
def currencyOfMatch (rule : CurRule) (caps : Caps) : String :=
  match rule, capGet caps 2 with
  | .fromMatch, some c2 => jsToUpper (String.mk c2)
  | .fromMatch, none => "match"
  | .fixed c, _ => c

/-- The inner `for (const match of matches)` loop of `extractPrice`. -/
def extractPriceMatches (text : List Char) (rule : CurRule) :
    List (Nat × List Char × Caps) → Option PriceMatch
  | [] => none
  | (idx, matched, caps) :: rest =>
    if passesContext text idx matched then
      match parseNumber ((capGet caps 1).getD []) (currencyOfMatch rule caps) with
      | some amount =>
        if 0 < amount ∧ amount < 1000000 then
          some ⟨amount, currencyOfMatch rule caps⟩
        else extractPriceMatches text rule rest
      | none => extractPriceMatches text rule rest
    else extractPriceMatches text rule rest

/-- The outer `for (const pattern of PRICE_PATTERNS)` loop. -/
def extractPricePatterns (text : List Char) :
    List (RE × CurRule) → Option PriceMatch
  | [] => none
  | (pat, rule) :: ps =>
    match extractPriceMatches text rule (reMatchAll pat text) with
    | some pm => some pm
    | none => extractPricePatterns text ps

/-- `extractPrice`: first surviving candidate in pattern-precedence order. -/
def extractPrice (text : List Char) : Option PriceMatch :=
  extractPricePatterns text PRICE_PATTERNS

/-! ## Discount and original price (extractDiscount, extractOriginalPrice) -/

/-- `extractDiscount`: first pattern whose match parses to 1-99. -/
def extractDiscountGo (text : List Char) : List RE → Option Nat
  | [] => none
  | p :: ps =>
    match reFind p text with
    | some (_, _, caps) =>
      if 0 < digitsToNat ((capGet caps 1).getD []) ∧
          digitsToNat ((capGet caps 1).getD []) ≤ 99 then
        some (digitsToNat ((capGet caps 1).getD []))
      else extractDiscountGo text ps
    | none => extractDiscountGo text ps

def extractDiscount (text : List Char) : Option Nat :=
  extractDiscountGo text DISCOUNT_PATTERNS

/-- `extractOriginalPrice`: first "was" pattern parsing to a positive
amount. -/
def extractOriginalPriceGo (text : List Char) (currency : String) :
    List RE → Option ℚ
  | [] => none
  | p :: ps =>
    match reFind p text with
    | some (_, _, caps) =>
      match parseNumber ((capGet caps 1).getD []) currency with
      | some amount =>
        if 0 < amount then some amount
        else extractOriginalPriceGo text currency ps
      | none => extractOriginalPriceGo text currency ps
    | none => extractOriginalPriceGo text currency ps

def extractOriginalPrice (text : List Char) (currency : String) : Option ℚ :=
  extractOriginalPriceGo text currency WAS_PRICE_PATTERNS

/-! ## Product name (extractProductName) -/

/-- Delete the spans `(index, length)` (with indices into `s`, ascending
and non-overlapping) from a list, keeping everything from `pos` on that no
span covers. -/
def removeSpansGo (s : List Char) (pos : Nat) : List (Nat × Nat) → List Char
  | [] => s.drop pos
  | (i, l) :: rest => (s.drop pos).take (i - pos) ++ removeSpansGo s (i + l) rest

/-- `replace(re, '')` on a `g`-flagged regex: delete every match. -/
def removeAllMatches (pat : RE) (s : List Char) : List Char :=
  removeSpansGo s 0 ((reMatchAll pat s).map fun m => (m.1, m.2.1.length))

/-- `replace(re, '')` on an unflagged regex: delete the first match. -/
def removeFirstMatch (pat : RE) (s : List Char) : List Char :=
  match reFind pat s with
  | none => s
  | some (i, matched, _) => s.take i ++ s.drop (i + matched.length)

/-- `/\s*[-|]\s*(Amazon|eBay|Walmart|Best Buy|Target|Newegg).*$/i` -/
def reRetailerSuffix : RE :=
  reCats [.star .wsp, .alt (.chr '-') (.chr '|'), .star .wsp,
    .group 1 (reAlts (reStrCI "Amazon")
      [reStrCI "eBay", reStrCI "Walmart", reStrCI "Best Buy",
       reStrCI "Target", reStrCI "Newegg"]),
    .star .dot, .eos]

/-- `/[:|]\s*$/` -/
def reTrailingPunct : RE :=
  reCats [.alt (.chr ':') (.chr '|'), .star .wsp, .eos]

/-- JavaScript `String.prototype.trim`. -/
def jsTrim (s : List Char) : List Char :=
  ((s.dropWhile Char.isWhitespace).reverse.dropWhile Char.isWhitespace).reverse

/-- `extractProductName`: strip price patterns, discount patterns, a
well-known retailer suffix and trailing punctuation; fall back to the
title when nothing remains. -/
def extractProductName (title : List Char) : List Char :=
  let cleaned := PRICE_PATTERNS.foldl (fun s pr => removeAllMatches pr.1 s) title
  let cleaned := DISCOUNT_PATTERNS.foldl (fun s p => removeFirstMatch p s) cleaned
  let cleaned := removeFirstMatch reRetailerSuffix cleaned
  let cleaned := jsTrim (removeFirstMatch reTrailingPunct cleaned)
  if cleaned.isEmpty then title else cleaned

/-! ## parsePrice (src/core/priceParser.ts) -/

/-- The text blob scanned by the text tier:
`` `${title} ${snippet || ''} ${description || ''}` ``. -/
def textOf (r : SearchResult) : List Char :=
  (r.title ++ " " ++ r.snippet.getD "" ++ " " ++ r.description.getD "").toList

/-- The metatag loop of the structured tier (`parsePrice` lines 41-64).
JavaScript truthiness: an empty amount string is skipped, an empty or
absent currency string defaults to `'USD'`. -/
def parsePriceMetatags (r : SearchResult) : List Metatag → Option PriceInfo
  | [] => none
  | m :: ms =>
    match m.priceAmount with
    | some priceAmount =>
      if priceAmount ≠ "" then
        match jsParseFloat (priceAmount.toList.filter fun c => c.isDigit ∨ c = '.') with
        | some amount =>
          if 0 < amount ∧ amount < 1000000 then
            some
              { retailer := extractRetailer r.url
                productName := String.mk (extractProductName r.title.toList)
                currentPrice := amount
                currency := jsToUpper
                  (match m.priceCurrency with
                   | some c => if c = "" then "USD" else c
                   | none => "USD")
                discount := none
                originalPrice := none
                url := r.url
                source := r.source
                normalizedPrice := none }
          else parsePriceMetatags r ms
        | none => parsePriceMetatags r ms
      else parsePriceMetatags r ms
    | none => parsePriceMetatags r ms

/-- The offers loop of the structured tier (`parsePrice` lines 67-88). -/
def parsePriceOffers (r : SearchResult) : List Offer → Option PriceInfo
  | [] => none
  | o :: os =>
    match o.price with
    | some price =>
      if price ≠ "" then
        match jsParseFloat (price.toList.filter fun c => c.isDigit ∨ c = '.') with
        | some amount =>
          if 0 < amount ∧ amount < 1000000 then
            some
              { retailer := extractRetailer r.url
                productName := String.mk (extractProductName r.title.toList)
                currentPrice := amount
                currency :=
                  match o.pricecurrency with
                  | some c => if jsToUpper c = "" then "USD" else jsToUpper c
                  | none => "USD"
                discount := none
                originalPrice := none
                url := r.url
                source := r.source
                normalizedPrice := none }
          else parsePriceOffers r os
        | none => parsePriceOffers r os
      else parsePriceOffers r os
    | none => parsePriceOffers r os

/-- The structured tier of `parsePrice`: Google results with structured
data, metatags first, offers as fallback. -/
def parsePriceStructured (r : SearchResult) : Option PriceInfo :=
  if r.source = .google then
    match r.structuredData with
    | some sd =>
      match (match sd.metatags with
             | some mts => parsePriceMetatags r mts
             | none => none) with
      | some p => some p
      | none =>
        match sd.offers with
        | some os => parsePriceOffers r os
        | none => none
    | none => none
  else none

/-- The text tier of `parsePrice` (lines 92-124). -/
def finalDiscountOf (text : List Char) (priceMatch : PriceMatch) : Option ℤ :=
  match extractDiscount text with
  | some d => some (d : ℤ)
  | none =>
    match extractOriginalPrice text priceMatch.currency with
    | some op =>
      if priceMatch.amount < op then
        some (jsRound ((op - priceMatch.amount) / op * 100))
      else none
    | none => none

def parsePriceText (r : SearchResult) : Option PriceInfo :=
  match extractPrice (textOf r) with
  | none => none
  | some priceMatch =>
    some
      { retailer := extractRetailer r.url
        productName := String.mk (extractProductName r.title.toList)
        currentPrice := priceMatch.amount
        currency := priceMatch.currency
        discount := finalDiscountOf (textOf r) priceMatch
        originalPrice := extractOriginalPrice (textOf r) priceMatch.currency
        url := r.url
        source := r.source
        normalizedPrice := none }

/-- `parsePrice`: structured tier first (which returns immediately on
success), text tier as fallback. -/
def parsePrice (r : SearchResult) : Option PriceInfo :=
  match parsePriceStructured r with
  | some p => some p
  | none => parsePriceText r

/-- `parsePrices`: batch parse, dropping results without a price. -/
def parsePrices (searchResults : List SearchResult) : List PriceInfo :=
  searchResults.filterMap parsePrice

/-! ## Retailer deduplication (deduplicateByRetailer) -/

/-- Append `p` to the group keyed `k`, creating the group at the end when
absent (insertion-ordered `Map` semantics). -/
def addToGroup : List (String × List PriceInfo) → String → PriceInfo →
    List (String × List PriceInfo)
  | [], k, p => [(k, [p])]
  | (k', ps) :: rest, k, p =>
    if k' = k then (k', ps ++ [p]) :: rest
    else (k', ps) :: addToGroup rest k p

/-- The grouping loop of `deduplicateByRetailer`. -/
def buildRetailerMap (m : List (String × List PriceInfo)) :
    List PriceInfo → List (String × List PriceInfo)
  | [] => m
  | p :: rest => buildRetailerMap (addToGroup m (normalizeRetailerUrl p.url) p) rest

/-- The per-group pick: a single entry is kept; among several, the first
entry from the priority source, else the first entry. -/
def pickFromGroup (prioritySource : Source) : List PriceInfo → List PriceInfo
  | [] => []
  | p :: tail =>
    if tail.isEmpty then [p]
    else
      match (p :: tail).find? (fun q => q.source = prioritySource) with
      | some priorityResult => [priorityResult]
      | none => [p]

/-- `deduplicateByRetailer`: group by normalized retailer URL, keep one
entry per group. -/
def deduplicateByRetailer (prices : List PriceInfo) (prioritySource : Source) :
    List PriceInfo :=
  (buildRetailerMap [] prices).flatMap fun kv => pickFromGroup prioritySource kv.2

/-! ## Search orchestration (src/core/searchService.ts, src/services)

`searchProduct` fans out to providers and post-processes the settled
responses. The network layer is modelled by passing each provider's
settled outcome as an argument; everything after the `await` points is
embedded faithfully. `searchGoogleShopping` (src/services/googleShopping.ts)
catches every failure internally and resolves with `[]`, so its outcome is
a plain list; `searchBoth` (src/services/mcpBridge.ts) rejects exactly
when both the Brave and the Tavily call failed. -/

deriving instance DecidableEq for Except

inductive SearchMode where
  | all
  | google
  | brave
  | tavily
  | mcp
deriving DecidableEq, Repr

/-- A Brave web result (`brave.results.web.results[i]`). -/
structure BraveWebResult where
  title : String
  url : String
  description : Option String
deriving DecidableEq, Repr

/-- A Brave response; `items` models the `results?.web?.results` optional
chain. -/
structure BraveResponse where
  items : Option (List BraveWebResult)
deriving DecidableEq, Repr

structure TavilyItem where
  title : String
  url : String
  content : String
deriving DecidableEq, Repr

/-- A Tavily response; `items` models the `results` field. -/
structure TavilyResponse where
  items : Option (List TavilyItem)
deriving DecidableEq, Repr

/-- `searchBoth`: settle both engines, collect errors, reject only when
both failed. -/
def searchBoth (braveRes : Except String BraveResponse)
    (tavilyRes : Except String TavilyResponse) :
    Except String (Option BraveResponse × Option TavilyResponse × List String) :=
  if braveRes.toOption.isNone ∧ tavilyRes.toOption.isNone then
    .error "Both search engines failed"
  else
    .ok (braveRes.toOption, tavilyRes.toOption,
      (match braveRes with | .error e => [e] | .ok _ => []) ++
      (match tavilyRes with | .error e => [e] | .ok _ => []))

def mkBraveSearchResult (r : BraveWebResult) : SearchResult :=
  { title := r.title, url := r.url, snippet := r.description,
    description := r.description, source := .brave, structuredData := none }

def mkTavilySearchResult (r : TavilyItem) : SearchResult :=
  { title := r.title, url := r.url, snippet := some r.content,
    description := some r.content, source := .tavily, structuredData := none }

/-- The merged raw result list of `searchProduct` (lines 220-286): Brave
results, then Tavily results, then Google results, each gated by mode. -/
def mergedResults (mode : SearchMode)
    (mcp : Option (Option BraveResponse × Option TavilyResponse × List String))
    (googleResults : List SearchResult) : List SearchResult :=
  let braveItems :=
    if mode = .all ∨ mode = .mcp ∨ mode = .brave then
      match mcp with
      | some (some brave, _, _) =>
        match brave.items with
        | some rs => rs.map mkBraveSearchResult
        | none => []
      | _ => []
    else []
  let tavilyItems :=
    if mode = .all ∨ mode = .mcp ∨ mode = .tavily then
      match mcp with
      | some (_, some tavily, _) =>
        match tavily.items with
        | some rs => rs.map mkTavilySearchResult
        | none => []
      | _ => []
    else []
  let googleItems :=
    if (mode = .all ∨ mode = .google) ∧ googleResults.length > 0 then googleResults
    else []
  braveItems ++ tavilyItems ++ googleItems

/-- `searchProduct`, given the settled provider outcomes. A `searchBoth`
rejection rejects the whole `Promise.all` (Google never rejects), caught
and re-thrown with the `Search failed: ` prefix. -/
def searchProduct (productName : String) (mode : SearchMode)
    (braveRes : Except String BraveResponse)
    (tavilyRes : Except String TavilyResponse)
    (googleResults : List SearchResult) : Except String (List SearchResult) :=
  if (jsTrim productName.toList).length = 0 then
    .error "Product name cannot be empty"
  else
    match (if mode = .all ∨ mode = .mcp ∨ mode = .brave ∨ mode = .tavily
           then some (searchBoth braveRes tavilyRes) else none) with
    | some (.error e) => .error ("Search failed: " ++ e)
    | some (.ok mcpResults) =>
      if (mergedResults mode (some mcpResults) googleResults).length = 0 then
        .error "Search failed: No search results found from any engine"
      else
        .ok (filterEcommerceResults
          (deduplicateResults (mergedResults mode (some mcpResults) googleResults)))
    | none =>
      if (mergedResults mode none googleResults).length = 0 then
        .error "Search failed: No search results found from any engine"
      else
        .ok (filterEcommerceResults
          (deduplicateResults (mergedResults mode none googleResults)))

/-- The settled `searchBoth` outcome as seen by the result-processing
phase: present only in the modes that call it and when it did not
reject. -/
def settledMcp (mode : SearchMode) (braveRes : Except String BraveResponse)
    (tavilyRes : Except String TavilyResponse) :
    Option (Option BraveResponse × Option TavilyResponse × List String) :=
  if mode = .all ∨ mode = .mcp ∨ mode = .brave ∨ mode = .tavily then
    (searchBoth braveRes tavilyRes).toOption
  else none

/-! # Claims -/

/-- C4: for every amount and every currency in the fixed rate table,
`normalizeToUSD amount currency = amount * rate[currency]` with
USD=1.0, GBP=1.27, EUR=1.09, CAD=0.74, AUD=0.66; every currency code not
in the table normalizes at rate 1.0, i.e. to the amount itself. -/
theorem normalizeToUSD_rate_table (amount : ℚ) :
    normalizeToUSD amount "USD" = amount * 1 ∧
    normalizeToUSD amount "GBP" = amount * (127 / 100) ∧
    normalizeToUSD amount "EUR" = amount * (109 / 100) ∧
    normalizeToUSD amount "CAD" = amount * (74 / 100) ∧
    normalizeToUSD amount "AUD" = amount * (66 / 100) ∧
    ∀ currency : String, currency ∉ CURRENCY_RATES.map Prod.fst →
      normalizeToUSD amount currency = amount := by
  refine ⟨rfl, rfl, rfl, rfl, rfl, ?_⟩
  intro currency hc
  simp only [CURRENCY_RATES, List.map, List.mem_cons, List.not_mem_nil, or_false,
    not_or] at hc
  obtain ⟨h1, h2, h3, h4, h5⟩ := hc
  have e1 : (currency == "USD") = false := beq_eq_false_iff_ne.mpr h1
  have e2 : (currency == "GBP") = false := beq_eq_false_iff_ne.mpr h2
  have e3 : (currency == "EUR") = false := beq_eq_false_iff_ne.mpr h3
  have e4 : (currency == "CAD") = false := beq_eq_false_iff_ne.mpr h4
  have e5 : (currency == "AUD") = false := beq_eq_false_iff_ne.mpr h5
  simp [normalizeToUSD, CURRENCY_RATES, List.lookup, e1, e2, e3, e4, e5]

/-- Witness for C4 at amount 2 and the out-of-table code "JPY". -/
theorem normalizeToUSD_rate_table_witness :
    normalizeToUSD 2 "GBP" = 2 * (127 / 100) ∧ normalizeToUSD 2 "JPY" = 2 :=
  ⟨(normalizeToUSD_rate_table 2).2.1,
   (normalizeToUSD_rate_table 2).2.2.2.2.2 "JPY" (by decide)⟩

/-- C8: for a product name that is non-empty after trimming, the query
builder returns it unchanged when its lower-cased form contains one of
"price", "buy", "shop", "purchase", and otherwise appends " price" to the
original string. -/
theorem enhanceSearchQuery_keywords (productName : String)
    (_hne : jsTrim productName.toList ≠ []) :
    ((["price", "buy", "shop", "purchase"].any fun k =>
        jsIncludes (jsToLower productName) k) = true →
      enhanceSearchQuery productName = productName) ∧
    ((["price", "buy", "shop", "purchase"].any fun k =>
        jsIncludes (jsToLower productName) k) = false →
      enhanceSearchQuery productName = productName ++ " price") := by
  unfold enhanceSearchQuery
  constructor <;> intro h <;> simp [h]

/-- Witness for C8: a query without a pricing keyword gets " price"
appended; one with "buy" is returned unchanged. -/
theorem enhanceSearchQuery_keywords_witness :
    enhanceSearchQuery "iPhone 15" = "iPhone 15" ++ " price" ∧
    enhanceSearchQuery "buy iPhone 15" = "buy iPhone 15" :=
  ⟨(enhanceSearchQuery_keywords "iPhone 15" (by decide)).2 (by decide),
   (enhanceSearchQuery_keywords "buy iPhone 15" (by decide)).1 (by decide)⟩

/-- C9: the commerce filter rejects every result whose URL matches the
block-list (even when an accept condition also holds), and keeps a
non-blocked result exactly when its URL contains an allow-listed retailer
domain, or a commerce-path keyword, or its title contains a buy-intent
keyword (all case-insensitive). -/
theorem filterEcommerceResults_rules (results : List SearchResult) (r : SearchResult) :
    (urlBlocked r = true → r ∉ filterEcommerceResults results) ∧
    (urlBlocked r = false →
      (r ∈ filterEcommerceResults results ↔
        r ∈ results ∧ (urlAllowed r || urlPathCommerce r || titleBuyIntent r) = true)) := by
  have hiff : ∀ x : SearchResult, x ∈ filterEcommerceResults results ↔
      x ∈ results ∧ isEcommerceResult x = true := by
    intro x
    simp [filterEcommerceResults, List.mem_filter]
  constructor
  · intro hb hmem
    rcases (hiff r).1 hmem with ⟨-, he⟩
    simp [isEcommerceResult, hb] at he
  · intro hb
    rw [hiff]
    have hpred : isEcommerceResult r = (urlAllowed r || urlPathCommerce r || titleBuyIntent r) := by
      cases hA : urlAllowed r <;> cases hP : urlPathCommerce r <;>
        cases hT : titleBuyIntent r <;>
        simp [isEcommerceResult, hb, hA, hP, hT]
    rw [hpred]

/-- A blocked result used in the C9 witness: YouTube URL, buy-intent
title. -/
def resYouTube : SearchResult :=
  { title := "Buy a laptop - review video", url := "https://youtube.com/watch?v=1",
    snippet := none, description := none, source := .brave, structuredData := none }

/-- An allow-listed result used in the C9 witness. -/
def resAmazonLaptop : SearchResult :=
  { title := "Gaming Laptop", url := "https://amazon.com/product/123",
    snippet := none, description := none, source := .brave, structuredData := none }

/-- Witness for C9: the blocked result is dropped despite its buy-intent
title; the allow-listed one is kept. -/
theorem filterEcommerceResults_rules_witness :
    resYouTube ∉ filterEcommerceResults [resYouTube, resAmazonLaptop] ∧
    resAmazonLaptop ∈ filterEcommerceResults [resYouTube, resAmazonLaptop] :=
  ⟨(filterEcommerceResults_rules [resYouTube, resAmazonLaptop] resYouTube).1 (by decide),
   ((filterEcommerceResults_rules [resYouTube, resAmazonLaptop] resAmazonLaptop).2
      (by decide)).2 ⟨by decide, by decide⟩⟩


/-! ### Bounds lemmas for price extraction -/

lemma extractPriceMatches_bounds (text : List Char) (rule : CurRule)
    (ms : List (Nat × List Char × Caps)) (pm : PriceMatch)
    (h : extractPriceMatches text rule ms = some pm) :
    0 < pm.amount ∧ pm.amount < 1000000 := by
  induction ms with
  | nil => simp [extractPriceMatches] at h
  | cons m rest ih =>
    obtain ⟨idx, matched, caps⟩ := m
    unfold extractPriceMatches at h
    split at h
    · split at h
      · split at h
        · rename_i hrange
          obtain rfl := Option.some.inj h
          exact hrange
        · exact ih h
      · exact ih h
    · exact ih h

lemma extractPricePatterns_bounds (text : List Char)
    (pats : List (RE × CurRule)) (pm : PriceMatch)
    (h : extractPricePatterns text pats = some pm) :
    0 < pm.amount ∧ pm.amount < 1000000 := by
  induction pats with
  | nil => simp [extractPricePatterns] at h
  | cons pr ps ih =>
    obtain ⟨pat, rule⟩ := pr
    unfold extractPricePatterns at h
    split at h
    · rename_i pm0 hm
      obtain rfl := Option.some.inj h
      exact extractPriceMatches_bounds text rule _ pm0 hm
    · exact ih h

lemma extractPrice_bounds (text : List Char) (pm : PriceMatch)
    (h : extractPrice text = some pm) :
    0 < pm.amount ∧ pm.amount < 1000000 :=
  extractPricePatterns_bounds text PRICE_PATTERNS pm h

lemma parsePriceMetatags_bounds (r : SearchResult) (mts : List Metatag)
    (p : PriceInfo) (h : parsePriceMetatags r mts = some p) :
    0 < p.currentPrice ∧ p.currentPrice < 1000000 := by
  induction mts with
  | nil => simp [parsePriceMetatags] at h
  | cons m ms ih =>
    unfold parsePriceMetatags at h
    split at h
    · split at h
      · split at h
        · split at h
          · rename_i hrange
            obtain rfl := Option.some.inj h
            exact hrange
          · exact ih h
        · exact ih h
      · exact ih h
    · exact ih h

lemma parsePriceOffers_bounds (r : SearchResult) (os : List Offer)
    (p : PriceInfo) (h : parsePriceOffers r os = some p) :
    0 < p.currentPrice ∧ p.currentPrice < 1000000 := by
  induction os with
  | nil => simp [parsePriceOffers] at h
  | cons o os ih =>
    unfold parsePriceOffers at h
    split at h
    · split at h
      · split at h
        · split at h
          · rename_i hrange
            obtain rfl := Option.some.inj h
            exact hrange
          · exact ih h
        · exact ih h
      · exact ih h
    · exact ih h

lemma parsePriceStructured_bounds (r : SearchResult) (p : PriceInfo)
    (h : parsePriceStructured r = some p) :
    0 < p.currentPrice ∧ p.currentPrice < 1000000 := by
  unfold parsePriceStructured at h
  split at h
  · split at h
    · split at h
      · rename_i p0 hmt
        obtain rfl := Option.some.inj h
        split at hmt
        · exact parsePriceMetatags_bounds r _ _ hmt
        · simp at hmt
      · split at h
        · exact parsePriceOffers_bounds r _ _ h
        · simp at h
    · simp at h
  · simp at h

lemma parsePriceText_bounds (r : SearchResult) (p : PriceInfo)
    (h : parsePriceText r = some p) :
    0 < p.currentPrice ∧ p.currentPrice < 1000000 := by
  unfold parsePriceText at h
  split at h
  · simp at h
  · rename_i pm hpm
    obtain rfl := Option.some.inj h
    exact extractPrice_bounds _ pm hpm

/-- C1: whenever `parsePrice` returns a `PriceInfo` — via the structured
tier or the text tier — its `currentPrice` lies strictly between 0 and
1,000,000; consequently every entry of `parsePrices` does too. -/
theorem parsePrice_currentPrice_bounds :
    (∀ r p, parsePrice r = some p →
      0 < p.currentPrice ∧ p.currentPrice < 1000000) ∧
    (∀ rs p, p ∈ parsePrices rs →
      0 < p.currentPrice ∧ p.currentPrice < 1000000) := by
  have h1 : ∀ r p, parsePrice r = some p →
      0 < p.currentPrice ∧ p.currentPrice < 1000000 := by
    intro r p h
    unfold parsePrice at h
    cases hs : parsePriceStructured r with
    | some p0 =>
      rw [hs] at h
      obtain rfl := Option.some.inj h
      exact parsePriceStructured_bounds r p0 hs
    | none =>
      rw [hs] at h
      exact parsePriceText_bounds r p h
  refine ⟨h1, ?_⟩
  intro rs p hmem
  rw [parsePrices, List.mem_filterMap] at hmem
  obtain ⟨r, -, hr⟩ := hmem
  exact h1 r p hr

/-- The input of the C1 witness. -/
def resDollarFive : SearchResult :=
  { title := "a $5", url := "x", snippet := none, description := none,
    source := .brave, structuredData := none }

/-- The output of the C1 witness. -/
def priceDollarFive : PriceInfo :=
  { retailer := "Unknown", productName := "a", currentPrice := 5,
    currency := "USD", discount := none, originalPrice := none, url := "x",
    source := .brave, normalizedPrice := none }

/-- Witness for C1 at a concrete parsed result. -/
theorem parsePrice_currentPrice_bounds_witness :
    0 < priceDollarFive.currentPrice ∧ priceDollarFive.currentPrice < 1000000 :=
  parsePrice_currentPrice_bounds.1 resDollarFive priceDollarFive (by decide)

/-- The input of C10: a four-digit price written without a thousands
separator. -/
def resNoSeparator : SearchResult :=
  { title := "Gaming Laptop - $1299.99", url := "https://amazon.com/product/123",
    snippet := none, description := none, source := .brave, structuredData := none }

/-- The truncated output the text tier produces on `resNoSeparator`. -/
def priceTruncated : PriceInfo :=
  { retailer := "Amazon", productName := "Gaming Laptop - 9.99",
    currentPrice := 129, currency := "USD", discount := none,
    originalPrice := none, url := "https://amazon.com/product/123",
    source := .brave, normalizedPrice := none }

/-- C10: because every price pattern captures digits as
`\d{1,3}(?:,\d{3})*`, the title "Gaming Laptop - $1299.99" is extracted
as currentPrice = 129 rather than 1299.99, and the truncated value is
returned since it lies inside (0, 1,000,000). -/
theorem parsePrice_truncates_unseparated_digits :
    parsePrice resNoSeparator = some priceTruncated ∧
    priceTruncated.currentPrice = 129 ∧
    (0 < (129 : ℚ) ∧ (129 : ℚ) < 1000000) ∧
    (129 : ℚ) ≠ 1299 + 99 / 100 := by
  refine ⟨by decide, by decide, by decide, by decide⟩

/-! ### Discount range lemmas -/

lemma extractDiscountGo_range (text : List Char) (pats : List RE) (d : Nat)
    (h : extractDiscountGo text pats = some d) : 0 < d ∧ d ≤ 99 := by
  induction pats with
  | nil => simp [extractDiscountGo] at h
  | cons p ps ih =>
    unfold extractDiscountGo at h
    split at h
    · split at h
      · rename_i hrange
        obtain rfl := Option.some.inj h
        exact hrange
      · exact ih h
    · exact ih h

lemma extractDiscount_range (text : List Char) (d : Nat)
    (h : extractDiscount text = some d) : 0 < d ∧ d ≤ 99 :=
  extractDiscountGo_range text DISCOUNT_PATTERNS d h

lemma extractOriginalPriceGo_pos (text : List Char) (currency : String)
    (pats : List RE) (op : ℚ)
    (h : extractOriginalPriceGo text currency pats = some op) : 0 < op := by
  induction pats with
  | nil => simp [extractOriginalPriceGo] at h
  | cons p ps ih =>
    unfold extractOriginalPriceGo at h
    split at h
    · split at h
      · split at h
        · rename_i hpos
          obtain rfl := Option.some.inj h
          exact hpos
        · exact ih h
      · exact ih h
    · exact ih h

/-- `Math.round` of the relative discount lies in [0, 100] when
`0 < cur < op`. -/
lemma jsRound_ratio_range (cur op : ℚ) (h0 : 0 < cur) (hlt : cur < op) :
    0 ≤ jsRound ((op - cur) / op * 100) ∧ jsRound ((op - cur) / op * 100) ≤ 100 := by
  have hop : 0 < op := lt_trans h0 hlt
  have hlt1 : (op - cur) / op < 1 := by
    rw [div_lt_one hop]
    linarith
  have hgt0 : 0 < (op - cur) / op := div_pos (by linarith) hop
  constructor
  · rw [jsRound]
    have hq : (0 : ℚ) ≤ (op - cur) / op * 100 + 1 / 2 := by nlinarith
    exact Int.le_floor.mpr (by push_cast; linarith)
  · rw [jsRound]
    have hub : ((op - cur) / op * 100 + 1 / 2 : ℚ) < ((101 : ℤ) : ℚ) := by
      push_cast
      nlinarith
    have := Int.floor_lt.mpr hub
    omega

lemma parsePriceMetatags_discount_none (r : SearchResult) (mts : List Metatag)
    (p : PriceInfo) (h : parsePriceMetatags r mts = some p) : p.discount = none := by
  induction mts with
  | nil => simp [parsePriceMetatags] at h
  | cons m ms ih =>
    unfold parsePriceMetatags at h
    split at h
    · split at h
      · split at h
        · split at h
          · obtain rfl := Option.some.inj h
            rfl
          · exact ih h
        · exact ih h
      · exact ih h
    · exact ih h

lemma parsePriceOffers_discount_none (r : SearchResult) (os : List Offer)
    (p : PriceInfo) (h : parsePriceOffers r os = some p) : p.discount = none := by
  induction os with
  | nil => simp [parsePriceOffers] at h
  | cons o os ih =>
    unfold parsePriceOffers at h
    split at h
    · split at h
      · split at h
        · split at h
          · obtain rfl := Option.some.inj h
            rfl
          · exact ih h
        · exact ih h
      · exact ih h
    · exact ih h

/-- The structured tier never sets a discount or an original price. -/
lemma parsePriceMetatags_originalPrice_none (r : SearchResult) (mts : List Metatag)
    (p : PriceInfo) (h : parsePriceMetatags r mts = some p) : p.originalPrice = none := by
  induction mts with
  | nil => simp [parsePriceMetatags] at h
  | cons m ms ih =>
    unfold parsePriceMetatags at h
    split at h
    · split at h
      · split at h
        · split at h
          · obtain rfl := Option.some.inj h
            rfl
          · exact ih h
        · exact ih h
      · exact ih h
    · exact ih h

lemma parsePriceOffers_originalPrice_none (r : SearchResult) (os : List Offer)
    (p : PriceInfo) (h : parsePriceOffers r os = some p) : p.originalPrice = none := by
  induction os with
  | nil => simp [parsePriceOffers] at h
  | cons o os ih =>
    unfold parsePriceOffers at h
    split at h
    · split at h
      · split at h
        · split at h
          · obtain rfl := Option.some.inj h
            rfl
          · exact ih h
        · exact ih h
      · exact ih h
    · exact ih h

lemma parsePriceStructured_no_discount (r : SearchResult) (p : PriceInfo)
    (h : parsePriceStructured r = some p) :
    p.discount = none ∧ p.originalPrice = none := by
  unfold parsePriceStructured at h
  split at h
  · split at h
    · split at h
      · rename_i p0 hmt
        obtain rfl := Option.some.inj h
        split at hmt
        · exact ⟨parsePriceMetatags_discount_none r _ _ hmt,
            parsePriceMetatags_originalPrice_none r _ _ hmt⟩
        · simp at hmt
      · split at h
        · exact ⟨parsePriceOffers_discount_none r _ _ h,
            parsePriceOffers_originalPrice_none r _ _ h⟩
        · simp at h
    · simp at h
  · simp at h

/-- The input of the C6 counterexample: current price far below the "was"
price. -/
def resSteepDiscount : SearchResult :=
  { title := "Product $1.00", url := "https://shop.com/a",
    snippet := some "was $999", description := none, source := .brave,
    structuredData := none }

/-- The output of `parsePrice` on `resSteepDiscount`: the computed
discount is 100. -/
def priceSteepDiscount : PriceInfo :=
  { retailer := "Shop", productName := "Product", currentPrice := 1,
    currency := "USD", discount := some 100, originalPrice := some 999,
    url := "https://shop.com/a", source := .brave, normalizedPrice := none }

/-- C6 counterexample: `parsePrice` returns a present `discount` of 100 —
`round((999 - 1) / 999 * 100) = 100` — outside the claimed 1..99 range. -/
theorem parsePrice_discount_100_counterexample :
    parsePrice resSteepDiscount = some priceSteepDiscount ∧
    priceSteepDiscount.discount = some 100 ∧
    ¬((1 : ℤ) ≤ 100 ∧ (100 : ℤ) ≤ 99) :=
  ⟨by decide, by decide, by decide⟩

/-- C6 (amended): a present `discount` is an integer in 1..99 when it
comes from an explicit percentage phrase; when computed from a "was"
price it equals `round((op - cur)/op * 100)`, which lies in 0..100 (and
can reach 0 or 100). -/
theorem parsePrice_discount_range (r : SearchResult) (p : PriceInfo) (d : ℤ)
    (hp : parsePrice r = some p) (hd : p.discount = some d) :
    (1 ≤ d ∧ d ≤ 99) ∨
    (extractDiscount (textOf r) = none ∧ 0 ≤ d ∧ d ≤ 100) := by
  unfold parsePrice at hp
  split at hp
  · rename_i p0 hs
    obtain rfl := Option.some.inj hp
    rw [(parsePriceStructured_no_discount r p0 hs).1] at hd
    exact absurd hd (by simp)
  · unfold parsePriceText at hp
    split at hp
    · exact absurd hp (by simp)
    · rename_i pm hpm
      obtain rfl := Option.some.inj hp
      replace hd : finalDiscountOf (textOf r) pm = some d := hd
      unfold finalDiscountOf at hd
      split at hd
      · rename_i d0 hdisc
        obtain rfl := Option.some.inj hd
        obtain ⟨h1, h2⟩ := extractDiscount_range (textOf r) d0 hdisc
        exact Or.inl ⟨by exact_mod_cast h1, by exact_mod_cast h2⟩
      · rename_i hdisc
        split at hd
        · rename_i op hop
          split at hd
          · rename_i hlt
            obtain rfl := Option.some.inj hd
            have hcur : 0 < pm.amount := (extractPrice_bounds (textOf r) pm hpm).1
            exact Or.inr ⟨hdisc, jsRound_ratio_range pm.amount op hcur hlt⟩
          · exact absurd hd (by simp)
        · exact absurd hd (by simp)

/-- Witness for the amended C6 at the concrete steep-discount input. -/
theorem parsePrice_discount_range_witness :
    (1 ≤ (100 : ℤ) ∧ (100 : ℤ) ≤ 99) ∨
    (extractDiscount (textOf resSteepDiscount) = none ∧
      0 ≤ (100 : ℤ) ∧ (100 : ℤ) ≤ 100) :=
  parsePrice_discount_range resSteepDiscount priceSteepDiscount 100
    (by decide) (by decide)

/-- Metatag of the C5 counterexample input. -/
def metaMouse : Metatag :=
  { priceAmount := some "59.99", priceCurrency := some "USD" }

/-- Structured data of the C5 counterexample input. -/
def sdMouse : StructuredData :=
  { offers := none, metatags := some [metaMouse] }

/-- The C5 counterexample input: a Google result with structured price
data whose text carries an explicit "20% off" phrase. -/
def resMouseStructured : SearchResult :=
  { title := "Gaming Mouse 20% off", url := "https://bestbuy.com/mouse",
    snippet := some "", description := none, source := .google,
    structuredData := some sdMouse }

/-- What `parsePrice` returns on `resMouseStructured`: the structured
tier's record, with no discount. -/
def priceMouseStructured : PriceInfo :=
  { retailer := "Bestbuy", productName := "Gaming Mouse",
    currentPrice := 5999 / 100, currency := "USD", discount := none,
    originalPrice := none, url := "https://bestbuy.com/mouse",
    source := .google, normalizedPrice := none }

/-- C5 counterexample: when the structured tier produces the price, the
discount extractor does not run — the text contains an explicit "20% off"
phrase (the extractor would return 20 on it), yet the returned `PriceInfo`
has no `discount`. -/
theorem structured_tier_skips_discount_counterexample :
    parsePrice resMouseStructured = some priceMouseStructured ∧
    extractDiscount (textOf resMouseStructured) = some 20 ∧
    priceMouseStructured.discount = none ∧
    priceMouseStructured.originalPrice = none :=
  ⟨by decide, by decide, by decide, by decide⟩

/-- C5 (amended): discount and original-price extraction run only on the
text tier. A `PriceInfo` produced by the structured tier carries no
`discount` and no `originalPrice`, whatever the text says; a text-tier
result carries exactly the extracted discount (explicit percentage first,
else the value computed from a larger "was" price) and the extracted
original price. -/
theorem discount_extraction_tier_dependence (r : SearchResult) (p : PriceInfo)
    (hp : parsePrice r = some p) :
    (parsePriceStructured r = some p ∧ p.discount = none ∧ p.originalPrice = none) ∨
    (parsePriceStructured r = none ∧
      p.discount = finalDiscountOf (textOf r) ⟨p.currentPrice, p.currency⟩ ∧
      p.originalPrice = extractOriginalPrice (textOf r) p.currency) := by
  unfold parsePrice at hp
  split at hp
  · rename_i p0 hs
    obtain rfl := Option.some.inj hp
    obtain ⟨h1, h2⟩ := parsePriceStructured_no_discount r p0 hs
    exact Or.inl ⟨hs, h1, h2⟩
  · rename_i hs
    unfold parsePriceText at hp
    split at hp
    · exact absurd hp (by simp)
    · rename_i pm hpm
      obtain rfl := Option.some.inj hp
      exact Or.inr ⟨hs, rfl, rfl⟩

/-- Witness for the amended C5 at the structured-tier counterexample
input. -/
theorem discount_extraction_tier_dependence_witness :
    (parsePriceStructured resMouseStructured = some priceMouseStructured ∧
      priceMouseStructured.discount = none ∧
      priceMouseStructured.originalPrice = none) ∨
    (parsePriceStructured resMouseStructured = none ∧
      priceMouseStructured.discount =
        finalDiscountOf (textOf resMouseStructured)
          ⟨priceMouseStructured.currentPrice, priceMouseStructured.currency⟩ ∧
      priceMouseStructured.originalPrice =
        extractOriginalPrice (textOf resMouseStructured)
          priceMouseStructured.currency) :=
  discount_extraction_tier_dependence resMouseStructured priceMouseStructured
    (by decide)

/-! ### Deduplication lemmas (C2) -/

/-- The retailer identity key used for grouping. -/
def retailerKey (p : PriceInfo) : String :=
  normalizeRetailerUrl p.url

/-- All entries of `prices` with retailer identity `k`, in input order. -/
def retailerGroup (k : String) (prices : List PriceInfo) : List PriceInfo :=
  prices.filter fun p => retailerKey p == k

/-- Group lookup in the insertion-ordered map. -/
def findGroup (m : List (String × List PriceInfo)) (k : String) : List PriceInfo :=
  match m.find? (fun kv => kv.1 == k) with
  | some kv => kv.2
  | none => []

lemma addToGroup_keys (m : List (String × List PriceInfo)) (k : String) (p : PriceInfo) :
    (addToGroup m k p).map Prod.fst =
      if k ∈ m.map Prod.fst then m.map Prod.fst else m.map Prod.fst ++ [k] := by
  induction m with
  | nil => simp [addToGroup]
  | cons kv rest ih =>
    obtain ⟨k', ps⟩ := kv
    by_cases hk : k' = k
    · subst hk
      simp [addToGroup]
    · simp only [addToGroup, if_neg hk, List.map_cons, ih]
      have : (k ∈ k' :: rest.map Prod.fst) ↔ (k ∈ rest.map Prod.fst) := by
        simp [List.mem_cons, Ne.symm hk]
      by_cases hmem : k ∈ rest.map Prod.fst
      · simp [hmem, this]
      · simp [hmem, this]

lemma addToGroup_findGroup_same (m : List (String × List PriceInfo)) (k : String)
    (p : PriceInfo) : findGroup (addToGroup m k p) k = findGroup m k ++ [p] := by
  induction m with
  | nil => simp [addToGroup, findGroup]
  | cons kv rest ih =>
    obtain ⟨k', ps⟩ := kv
    by_cases hk : k' = k
    · subst hk
      simp [addToGroup, findGroup]
    · have hbeq : (k' == k) = false := beq_eq_false_iff_ne.mpr hk
      simp only [addToGroup, if_neg hk, findGroup, List.find?] at ih ⊢
      rw [hbeq]
      simpa [findGroup] using ih

lemma addToGroup_findGroup_other (m : List (String × List PriceInfo)) (k k' : String)
    (p : PriceInfo) (hne : k' ≠ k) :
    findGroup (addToGroup m k p) k' = findGroup m k' := by
  induction m with
  | nil => simp [addToGroup, findGroup, List.find?, beq_eq_false_iff_ne.mpr (Ne.symm hne)]
  | cons kv rest ih =>
    obtain ⟨k0, ps⟩ := kv
    by_cases hk : k0 = k
    · subst hk
      simp [addToGroup, findGroup, List.find?, beq_eq_false_iff_ne.mpr (Ne.symm hne)]
    · by_cases hk' : k0 = k'
      · subst hk'
        simp [addToGroup, if_neg hk, findGroup, List.find?]
      · simp only [addToGroup, if_neg hk, findGroup, List.find?,
          beq_eq_false_iff_ne.mpr hk'] at ih ⊢
        simpa [findGroup] using ih

lemma buildRetailerMap_keys_mem (prices : List PriceInfo) :
    ∀ (m : List (String × List PriceInfo)) (k : String),
      k ∈ (buildRetailerMap m prices).map Prod.fst ↔
        k ∈ m.map Prod.fst ∨ k ∈ prices.map retailerKey := by
  induction prices with
  | nil => intro m k; simp [buildRetailerMap]
  | cons p rest ih =>
    intro m k
    rw [buildRetailerMap, ih]
    rw [addToGroup_keys]
    by_cases hmem : normalizeRetailerUrl p.url ∈ m.map Prod.fst
    · rw [if_pos hmem]
      simp only [List.map_cons, List.mem_cons]
      constructor
      · rintro (h | h)
        · exact Or.inl h
        · exact Or.inr (Or.inr h)
      · rintro (h | h | h)
        · exact Or.inl h
        · subst h
          exact Or.inl hmem
        · exact Or.inr h
    · rw [if_neg hmem]
      simp only [List.map_cons, List.mem_cons, List.mem_append, List.mem_singleton,
        retailerKey]
      tauto

lemma buildRetailerMap_keys_nodup (prices : List PriceInfo) :
    ∀ (m : List (String × List PriceInfo)),
      (m.map Prod.fst).Nodup → ((buildRetailerMap m prices).map Prod.fst).Nodup := by
  induction prices with
  | nil => intro m hm; simpa [buildRetailerMap] using hm
  | cons p rest ih =>
    intro m hm
    rw [buildRetailerMap]
    apply ih
    rw [addToGroup_keys]
    by_cases hmem : normalizeRetailerUrl p.url ∈ m.map Prod.fst
    · rwa [if_pos hmem]
    · rw [if_neg hmem]
      rw [List.nodup_append]
      refine ⟨hm, List.nodup_singleton _, ?_⟩
      intro a ha hb
      simp only [List.mem_singleton] at hb
      subst hb
      exact hmem ha

lemma buildRetailerMap_findGroup (prices : List PriceInfo) :
    ∀ (m : List (String × List PriceInfo)) (k : String),
      findGroup (buildRetailerMap m prices) k =
        findGroup m k ++ retailerGroup k prices := by
  induction prices with
  | nil => intro m k; simp [buildRetailerMap, retailerGroup]
  | cons p rest ih =>
    intro m k
    rw [buildRetailerMap, ih]
    by_cases hk : normalizeRetailerUrl p.url = k
    · rw [hk, addToGroup_findGroup_same]
      have : (retailerKey p == k) = true := by
        simp [retailerKey, hk]
      simp [retailerGroup, List.filter, this]
    · rw [addToGroup_findGroup_other m _ k p (Ne.symm hk)]
      have : (retailerKey p == k) = false := by
        simp [retailerKey, hk]
      simp [retailerGroup, List.filter, this]

lemma findGroup_of_mem (m : List (String × List PriceInfo))
    (hnd : (m.map Prod.fst).Nodup) (kv : String × List PriceInfo) (hkv : kv ∈ m) :
    findGroup m kv.1 = kv.2 := by
  induction m with
  | nil => simp at hkv
  | cons kv0 rest ih =>
    obtain ⟨k0, ps0⟩ := kv0
    rcases List.mem_cons.mp hkv with heq | hmem
    · subst heq
      simp [findGroup, List.find?]
    · have hk0 : k0 ≠ kv.1 := by
        intro hcontra
        have : kv.1 ∈ rest.map Prod.fst := List.mem_map_of_mem Prod.fst hmem
        rw [← hcontra] at this
        exact (List.nodup_cons.mp hnd).1 this
      have : findGroup rest kv.1 = kv.2 := ih (List.nodup_cons.mp hnd).2 hmem
      simpa [findGroup, List.find?, beq_eq_false_iff_ne.mpr hk0] using this

lemma retailerGroup_key (k : String) (prices : List PriceInfo) (q : PriceInfo)
    (hq : q ∈ retailerGroup k prices) : retailerKey q = k := by
  have := List.of_mem_filter hq
  simpa using this

lemma retailerGroup_ne_nil (k : String) (prices : List PriceInfo)
    (hk : k ∈ prices.map retailerKey) : retailerGroup k prices ≠ [] := by
  obtain ⟨p, hp, hkey⟩ := List.mem_map.mp hk
  intro hnil
  have : p ∈ retailerGroup k prices := by
    rw [retailerGroup, List.mem_filter]
    exact ⟨hp, by simp [hkey]⟩
  rw [hnil] at this
  simp at this

lemma pickFromGroup_single (prio : Source) (ps : List PriceInfo) (hne : ps ≠ []) :
    ∃ q, pickFromGroup prio ps = [q] ∧ q ∈ ps := by
  cases ps with
  | nil => exact absurd rfl hne
  | cons p tail =>
    by_cases htail : tail.isEmpty = true
    · exact ⟨p, by simp [pickFromGroup, htail], by simp⟩
    · cases hfind : (p :: tail).find? (fun q => q.source = prio) with
      | some pr =>
        refine ⟨pr, by simp [pickFromGroup, htail, hfind], ?_⟩
        exact List.mem_of_find?_eq_some hfind
      | none => exact ⟨p, by simp [pickFromGroup, htail, hfind], by simp⟩

lemma pickFromGroup_priority (prio : Source) (ps : List PriceInfo) (q : PriceInfo)
    (hpick : pickFromGroup prio ps = [q])
    (hex : ∃ x ∈ ps, x.source = prio) : q.source = prio := by
  cases ps with
  | nil => simp [pickFromGroup] at hpick
  | cons p tail =>
    by_cases htail : tail.isEmpty = true
    · have hq : q = p := by
        rw [pickFromGroup, if_pos htail] at hpick
        exact (List.cons.injEq _ _ _ _ ▸ hpick).1.symm
      obtain ⟨x, hx, hsrc⟩ := hex
      have : x = p := by
        rcases List.mem_cons.mp hx with h | h
        · exact h
        · rw [List.isEmpty_iff] at htail
          rw [htail] at h
          simp at h
      rw [hq, ← this]
      exact hsrc
    · cases hfind : (p :: tail).find? (fun q => q.source = prio) with
      | some pr =>
        rw [pickFromGroup, if_neg htail, hfind] at hpick
        have hq : q = pr := (List.cons.injEq _ _ _ _ ▸ hpick).1.symm
        have := List.find?_some hfind
        rw [hq]
        simpa using this
      | none =>
        obtain ⟨x, hx, hsrc⟩ := hex
        have := List.find?_eq_none.mp hfind x hx
        simp [hsrc] at this

lemma pickFromGroup_first (prio : Source) (ps : List PriceInfo) (q : PriceInfo)
    (hpick : pickFromGroup prio ps = [q])
    (hall : ∀ x ∈ ps, x.source ≠ prio) : ps.head? = some q := by
  cases ps with
  | nil => simp [pickFromGroup] at hpick
  | cons p tail =>
    by_cases htail : tail.isEmpty = true
    · rw [pickFromGroup, if_pos htail] at hpick
      have : p = q := (List.cons.injEq _ _ _ _ ▸ hpick).1
      rw [this]
      rfl
    · cases hfind : (p :: tail).find? (fun q => q.source = prio) with
      | some pr =>
        have := List.find?_some hfind
        have hpr : pr ∈ p :: tail := List.mem_of_find?_eq_some hfind
        exact absurd (by simpa using this) (hall pr hpr)
      | none =>
        rw [pickFromGroup, if_neg htail, hfind] at hpick
        have : p = q := (List.cons.injEq _ _ _ _ ▸ hpick).1
        rw [this]
        rfl

lemma flatMap_pick_keys (prio : Source) (m : List (String × List PriceInfo))
    (hm : ∀ kv ∈ m, (∀ q ∈ kv.2, retailerKey q = kv.1) ∧ kv.2 ≠ []) :
    (m.flatMap fun kv => pickFromGroup prio kv.2).map retailerKey = m.map Prod.fst := by
  induction m with
  | nil => simp
  | cons kv rest ih =>
    obtain ⟨hkeys, hne⟩ := hm kv (by simp)
    obtain ⟨q, hpick, hq⟩ := pickFromGroup_single prio kv.2 hne
    have hrest := ih fun kv0 h0 => hm kv0 (by simp [h0])
    simp only [List.flatMap_cons, List.map_append, hpick, hrest, List.map_cons,
      List.map_nil]
    rw [hkeys q hq]
    rfl

/-- C2: `deduplicateByRetailer` returns exactly one entry per distinct
normalized retailer identity occurring in the input (same identities,
no duplicates); a group with a priority-source entry is represented by a
priority-source entry, and a group without one by its first entry in
input order. -/
theorem deduplicateByRetailer_grouping (prices : List PriceInfo) (prio : Source) :
    ((deduplicateByRetailer prices prio).map retailerKey).Nodup ∧
    (∀ k, k ∈ (deduplicateByRetailer prices prio).map retailerKey ↔
      k ∈ prices.map retailerKey) ∧
    (∀ p ∈ deduplicateByRetailer prices prio,
      ((∃ q ∈ retailerGroup (retailerKey p) prices, q.source = prio) →
        p.source = prio) ∧
      ((∀ q ∈ retailerGroup (retailerKey p) prices, q.source ≠ prio) →
        (retailerGroup (retailerKey p) prices).head? = some p)) := by
  set m := buildRetailerMap [] prices with hm
  have hnd : (m.map Prod.fst).Nodup :=
    buildRetailerMap_keys_nodup prices [] (by simp)
  have hkmem : ∀ k, k ∈ m.map Prod.fst ↔ k ∈ prices.map retailerKey := by
    intro k
    have := buildRetailerMap_keys_mem prices [] k
    simpa using this
  have hgroup : ∀ kv ∈ m, kv.2 = retailerGroup kv.1 prices := by
    intro kv hkv
    have h1 := findGroup_of_mem m hnd kv hkv
    have h2 := buildRetailerMap_findGroup prices [] kv.1
    rw [← hm, h1] at h2
    simpa [findGroup] using h2
  have hprop : ∀ kv ∈ m, (∀ q ∈ kv.2, retailerKey q = kv.1) ∧ kv.2 ≠ [] := by
    intro kv hkv
    constructor
    · intro q hq
      rw [hgroup kv hkv] at hq
      exact retailerGroup_key _ _ _ hq
    · rw [hgroup kv hkv]
      apply retailerGroup_ne_nil
      rw [← hkmem]
      exact List.mem_map_of_mem Prod.fst hkv
  have hout : deduplicateByRetailer prices prio =
      m.flatMap fun kv => pickFromGroup prio kv.2 := rfl
  have hkeysmap := flatMap_pick_keys prio m hprop
  refine ⟨?_, ?_, ?_⟩
  · rw [hout, hkeysmap]
    exact hnd
  · intro k
    rw [hout, hkeysmap]
    exact hkmem k
  · intro p hp
    rw [hout, List.mem_flatMap] at hp
    obtain ⟨kv, hkv, hpin⟩ := hp
    obtain ⟨q, hpick, hqin⟩ := pickFromGroup_single prio kv.2 (hprop kv hkv).2
    rw [hpick] at hpin
    have hpq : p = q := by simpa using hpin
    subst hpq
    have hkey : retailerKey p = kv.1 := (hprop kv hkv).1 p hqin
    have hgv : kv.2 = retailerGroup (retailerKey p) prices := by
      rw [hkey]
      exact hgroup kv hkv
    constructor
    · intro hex
      apply pickFromGroup_priority prio kv.2 p hpick
      rw [hgv]
      exact hex
    · intro hall
      have hfirst := pickFromGroup_first prio kv.2 p hpick (by rw [hgv]; exact hall)
      rw [← hgv]
      exact hfirst

/-- A Tavily-sourced Amazon entry for the C2 witness. -/
def amzTavily : PriceInfo :=
  { retailer := "Amazon", productName := "Product A", currentPrice := 100,
    currency := "USD", discount := none, originalPrice := none,
    url := "https://amazon.com/product-a", source := .tavily,
    normalizedPrice := none }

/-- A Google-sourced Amazon entry (different country TLD) for the C2
witness. -/
def amzGoogle : PriceInfo :=
  { retailer := "Amazon", productName := "Product A", currentPrice := 105,
    currency := "USD", discount := none, originalPrice := none,
    url := "https://www.amazon.co.uk/product-b", source := .google,
    normalizedPrice := none }

/-- Witness for C2: with a Google-priority duplicate pair collapsing to
one retailer identity, the retained entry is the priority-source one. -/
theorem deduplicateByRetailer_grouping_witness : amzGoogle.source = Source.google :=
  ((deduplicateByRetailer_grouping [amzTavily, amzGoogle] .google).2.2 amzGoogle
    (by decide)).1 ⟨amzGoogle, by decide, by decide⟩

/-! ### Sorting lemmas (C3) -/

lemma priceLe_trans (a b c : PriceInfo) (hab : priceLe a b = true)
    (hbc : priceLe b c = true) : priceLe a c = true := by
  simp only [priceLe, decide_eq_true_eq] at hab hbc ⊢
  exact le_trans hab hbc

lemma priceLe_total (a b : PriceInfo) : (priceLe a b || priceLe b a) = true := by
  simp only [priceLe, Bool.or_eq_true, decide_eq_true_eq]
  exact le_total (priceKey a) (priceKey b)

lemma annotateNormalized_idem (r : PriceInfo) :
    annotateNormalized (annotateNormalized r) = annotateNormalized r := by
  cases r
  rfl

lemma mergeSort_filter_key (l : List PriceInfo) (v : ℚ) :
    (l.mergeSort priceLe).filter (fun p => priceKey p == v) =
      l.filter (fun p => priceKey p == v) := by
  have hpc : List.Pairwise (fun a b => priceLe a b = true)
      (l.filter fun p => priceKey p == v) := by
    apply List.pairwise_of_forall_mem_list
    intro a ha b hb
    have hka : priceKey a = v := by simpa using List.of_mem_filter ha
    have hkb : priceKey b = v := by simpa using List.of_mem_filter hb
    simp [priceLe, hka, hkb]
  have hsub : (l.filter fun p => priceKey p == v).Sublist (l.mergeSort priceLe) :=
    List.sublist_mergeSort priceLe_trans priceLe_total hpc (List.filter_sublist l)
  have hsub2 : ((l.filter fun p => priceKey p == v).filter
      (fun p => priceKey p == v)).Sublist
        ((l.mergeSort priceLe).filter fun p => priceKey p == v) :=
    hsub.filter _
  rw [List.filter_filter] at hsub2
  simp only [Bool.and_self] at hsub2
  have hperm : ((l.mergeSort priceLe).filter fun p => priceKey p == v).Perm
      (l.filter fun p => priceKey p == v) :=
    (List.mergeSort_perm l priceLe).filter _
  exact (hsub2.eq_of_length hperm.length_eq.symm).symm

/-- C3: `sortByPriceAscending` is idempotent; every adjacent pair of its
output is ordered by the attached USD-normalized price; and for every key
value the entries carrying it appear exactly as in the annotated input
(stability: ties keep input order). -/
theorem sortByPriceAscending_ordered (results : List PriceInfo) :
    sortByPriceAscending (sortByPriceAscending results) = sortByPriceAscending results ∧
    List.Chain' (fun a b => priceKey a ≤ priceKey b) (sortByPriceAscending results) ∧
    (∀ v : ℚ, (sortByPriceAscending results).filter (fun p => priceKey p == v) =
      (results.map annotateNormalized).filter (fun p => priceKey p == v)) := by
  cases results with
  | nil => simp [sortByPriceAscending]
  | cons hd tl =>
    have hrw : sortByPriceAscending (hd :: tl) =
        ((hd :: tl).map annotateNormalized).mergeSort priceLe := by
      simp [sortByPriceAscending]
    have hsorted : List.Pairwise (fun a b => priceLe a b = true)
        (((hd :: tl).map annotateNormalized).mergeSort priceLe) :=
      List.sorted_mergeSort priceLe_trans priceLe_total _
    have hperm := List.mergeSort_perm ((hd :: tl).map annotateNormalized) priceLe
    refine ⟨?_, ?_, ?_⟩
    · have hne : (sortByPriceAscending (hd :: tl)).isEmpty = false := by
        rw [hrw, List.isEmpty_eq_false_iff_exists_mem]
        have : annotateNormalized hd ∈
            ((hd :: tl).map annotateNormalized).mergeSort priceLe := by
          rw [hperm.mem_iff]
          simp
        exact ⟨_, this⟩
      have hmapid : (sortByPriceAscending (hd :: tl)).map annotateNormalized =
          sortByPriceAscending (hd :: tl) := by
        have : ∀ x ∈ sortByPriceAscending (hd :: tl), annotateNormalized x = x := by
          intro x hx
          rw [hrw, hperm.mem_iff] at hx
          obtain ⟨y, -, rfl⟩ := List.mem_map.mp hx
          exact annotateNormalized_idem y
        calc (sortByPriceAscending (hd :: tl)).map annotateNormalized
            = (sortByPriceAscending (hd :: tl)).map id := List.map_congr_left this
          _ = sortByPriceAscending (hd :: tl) := List.map_id _
      rw [sortByPriceAscending, if_neg (by simp [hne]), hmapid]
      nth_rewrite 1 [hrw]
      exact List.mergeSort_of_sorted hsorted
    · rw [hrw]
      exact (hsorted.imp (by simp [priceLe])).chain'
    · intro v
      rw [hrw]
      exact mergeSort_filter_key _ v

/-- A GBP-priced entry for the C3 witness. -/
def sortEntryGBP : PriceInfo :=
  { retailer := "Apple", productName := "MacBook", currentPrice := 100,
    currency := "GBP", discount := none, originalPrice := none,
    url := "https://apple.com/uk", source := .tavily, normalizedPrice := none }

/-- A USD-priced entry for the C3 witness. -/
def sortEntryUSD : PriceInfo :=
  { retailer := "Amazon", productName := "MacBook", currentPrice := 120,
    currency := "USD", discount := none, originalPrice := none,
    url := "https://amazon.com/macbook", source := .brave, normalizedPrice := none }

/-- Witness for C3 at a concrete two-element list. -/
theorem sortByPriceAscending_ordered_witness :
    sortByPriceAscending (sortByPriceAscending [sortEntryGBP, sortEntryUSD]) =
      sortByPriceAscending [sortEntryGBP, sortEntryUSD] ∧
    List.Chain' (fun a b => priceKey a ≤ priceKey b)
      (sortByPriceAscending [sortEntryGBP, sortEntryUSD]) :=
  ⟨(sortByPriceAscending_ordered [sortEntryGBP, sortEntryUSD]).1,
   (sortByPriceAscending_ordered [sortEntryGBP, sortEntryUSD]).2.1⟩

/-- C7 (amended): given a non-empty name and no `Promise.all` rejection
(i.e. not both Brave and Tavily failing in a mode that calls them), the
search stage raises the provider-level "no results" error exactly when the
merged provider results are empty BEFORE URL-deduplication and commerce
filtering; otherwise it succeeds with the deduplicated, filtered list —
which may be empty, producing the separate "no prices found" outcome
downstream. -/
theorem searchProduct_outcomes (name : String) (mode : SearchMode)
    (braveRes : Except String BraveResponse)
    (tavilyRes : Except String TavilyResponse)
    (googleResults : List SearchResult)
    (hname : (jsTrim name.toList).length ≠ 0)
    (hsettle : (mode = .all ∨ mode = .mcp ∨ mode = .brave ∨ mode = .tavily) →
      ¬(braveRes.toOption.isNone = true ∧ tavilyRes.toOption.isNone = true)) :
    searchProduct name mode braveRes tavilyRes googleResults =
      (if (mergedResults mode (settledMcp mode braveRes tavilyRes)
            googleResults).length = 0 then
        .error "Search failed: No search results found from any engine"
      else
        .ok (filterEcommerceResults (deduplicateResults
          (mergedResults mode (settledMcp mode braveRes tavilyRes)
            googleResults)))) ∧
    (searchProduct name mode braveRes tavilyRes googleResults =
        .error "Search failed: No search results found from any engine" ↔
      mergedResults mode (settledMcp mode braveRes tavilyRes) googleResults = []) := by
  have hmain : searchProduct name mode braveRes tavilyRes googleResults =
      (if (mergedResults mode (settledMcp mode braveRes tavilyRes)
            googleResults).length = 0 then
        .error "Search failed: No search results found from any engine"
      else
        .ok (filterEcommerceResults (deduplicateResults
          (mergedResults mode (settledMcp mode braveRes tavilyRes)
            googleResults)))) := by
    unfold searchProduct
    rw [if_neg hname]
    split
    · rename_i e heq
      exfalso
      by_cases hbt : mode = .all ∨ mode = .mcp ∨ mode = .brave ∨ mode = .tavily
      · rw [if_pos hbt] at heq
        have hsb : searchBoth braveRes tavilyRes = .error e := Option.some.inj heq
        unfold searchBoth at hsb
        split at hsb
        · rename_i hcond
          exact hsettle hbt (by simpa using hcond)
        · exact absurd hsb (by simp)
      · rw [if_neg hbt] at heq
        exact absurd heq (by simp)
    · rename_i mcpResults heq
      by_cases hbt : mode = .all ∨ mode = .mcp ∨ mode = .brave ∨ mode = .tavily
      · rw [if_pos hbt] at heq
        have hsb : searchBoth braveRes tavilyRes = .ok mcpResults :=
          Option.some.inj heq
        have hset : settledMcp mode braveRes tavilyRes = some mcpResults := by
          unfold settledMcp
          rw [if_pos hbt, hsb]
          rfl
        rw [hset]
      · rw [if_neg hbt] at heq
        exact absurd heq (by simp)
    · rename_i heq
      by_cases hbt : mode = .all ∨ mode = .mcp ∨ mode = .brave ∨ mode = .tavily
      · rw [if_pos hbt] at heq
        exact absurd heq (by simp)
      · have hset : settledMcp mode braveRes tavilyRes = none := by
          unfold settledMcp
          rw [if_neg hbt]
        rw [hset]
  refine ⟨hmain, ?_⟩
  rw [hmain]
  by_cases hlen : (mergedResults mode (settledMcp mode braveRes tavilyRes)
      googleResults).length = 0
  · rw [if_pos hlen]
    simp [List.length_eq_zero.mp hlen]
  · rw [if_neg hlen]
    constructor
    · intro hcontra
      exact absurd hcontra (by simp)
    · intro hcontra
      rw [hcontra] at hlen
      simp at hlen

/-- Witness for the amended C7: in Google-only mode with one usable Google
result, the search stage succeeds with that result. -/
theorem searchProduct_outcomes_witness :
    searchProduct "laptop" .google (.error "Brave search failed: x")
      (.error "Tavily search failed: y") [resAmazonLaptop] =
      .ok [resAmazonLaptop] := by
  have h := searchProduct_outcomes "laptop" .google
    (.error "Brave search failed: x") (.error "Tavily search failed: y")
    [resAmazonLaptop] (by decide) (by decide)
  rw [h.1]
  decide

/-- A Brave web result on a blocked domain, for the C7 counterexample. -/
def braveYouTube : BraveWebResult :=
  { title := "Laptop review", url := "https://youtube.com/watch?v=1",
    description := some "video" }

/-- C7 counterexample. First: with Brave and Tavily both failing in mode
`all`, the pipeline is fatally rejected with "Both search engines failed"
even though Google succeeded with a result that survives filtering —
partial provider failure IS fatal here, and the claimed "no results" error
is not what is raised. Second: when providers return only results that the
commerce filter rejects, the stage succeeds with an empty list instead of
raising the provider-level "no results" error — so that error is NOT
raised "exactly when nothing usable remains after filtering". -/
theorem searchProduct_failure_counterexample :
    searchProduct "laptop" .all (.error "Brave search failed: x")
      (.error "Tavily search failed: y") [resAmazonLaptop] =
      .error "Search failed: Both search engines failed" ∧
    filterEcommerceResults (deduplicateResults [resAmazonLaptop]) =
      [resAmazonLaptop] ∧
    searchProduct "laptop" .all (.ok ⟨some [braveYouTube]⟩) (.ok ⟨some []⟩) [] =
      .ok [] :=
  ⟨by decide, by decide, by decide⟩
